import Mathlib

/-
Verification development for the AI-Model-Inference-Pipeline repository
(model-server/server.py): a KServe-V2-style inference server consisting of
a metrics registry (get_or_create_metric), an IrisClassifier with a fixed
4x3 weight matrix and a numerically stable softmax, and an infer handler
that decodes the first input tensor, runs the classifier, and maintains
Prometheus-style metrics on every path.

Embedding conventions:
- JSON numbers in payloads are modelled as rationals; the classifier's
  arithmetic (matrix product, exp, softmax) is modelled over the real
  numbers, the usual idealisation of the float pipeline.
- np.array(data, dtype=float32) is modelled for payloads of nesting depth
  at most two (a flat numeric list, or a list of equal-length numeric
  lists), which is the shape space of this protocol; anything else is a
  conversion failure, as numpy fails on ragged or non-numeric payloads.
- The handler's HTTP statuses map to HandlerOutcome: notReady is the 503
  raised before any metric is touched, ok is the 200 response, and
  internalError is the 500 raised from the generic except branch.
- Metric side effects are recorded as an event trace in execution order
  (gauge increment, decode start, counters, latency observation, gauge
  decrement); applyEvents folds the trace into the metrics state.
-/

namespace InferServer

/-- JSON-like payload values appearing in the data field of a named tensor. -/
inductive JVal where
  | num (q : ℚ)
  | str (s : String)
  | arr (elems : List JVal)

mutual

/-- Number of scalar leaves of one payload value. -/
def leafCount : JVal → Nat
  | JVal.num _ => 1
  | JVal.str _ => 1
  | JVal.arr xs => leafCountList xs

/-- Total number of scalar leaves of a payload list (the flattened element count). -/
def leafCountList : List JVal → Nat
  | [] => 0
  | v :: vs => leafCount v + leafCountList vs

end

/-- All elements numeric: conversion of a flat payload to a 1-D numeric array. -/
def allNums : List JVal → Option (List ℚ)
  | [] => some []
  | JVal.num q :: rest => (allNums rest).map (fun xs => q :: xs)
  | _ => none

/-- One nested row: a payload element that is itself a flat list of numbers. -/
def asRow : JVal → Option (List ℚ)
  | JVal.arr xs => allNums xs
  | _ => none

/-- All elements nested numeric rows. -/
def allRows : List JVal → Option (List (List ℚ))
  | [] => some []
  | v :: vs =>
    match asRow v, allRows vs with
    | some r, some rs => some (r :: rs)
    | _, _ => none

/-- Result of np.array(data, dtype=float32): a 1-D or 2-D numeric array. -/
inductive NDArr where
  | one (xs : List ℚ)
  | two (rows : List (List ℚ))

def errRagged : String := "setting an array element with a sequence"

def errConvert : String := "could not convert data to float32"

def errEmptyRows : String := "unreachable: empty list is handled as flat"

/-- Model of np.array(l, dtype=np.float32) on payloads of depth at most two.
A flat numeric list gives a 1-D array; a non-empty list of equal-length
numeric lists gives a 2-D array; ragged or non-numeric data raises. -/
def npArray (l : List JVal) : Except String NDArr :=
  match allNums l with
  | some xs => Except.ok (NDArr.one xs)
  | none =>
    match allRows l with
    | some (r0 :: rs) =>
      if rs.all (fun r => r.length == r0.length) then Except.ok (NDArr.two (r0 :: rs))
      else Except.error errRagged
    | some [] => Except.error errEmptyRows
    | none => Except.error errConvert

-- ── Protocol schemas (server.py lines 47-67) ─────────────────────────────────

/-- InferenceInput: name, declared shape, datatype, raw data payload. -/
structure InferenceInput where
  name : String
  shape : List Int
  datatype : String
  data : List JVal

/-- InferenceRequest: optional id and a list of input tensors (pydantic
places no lower bound on the length of the list). -/
structure InferenceRequest where
  id : Option String
  inputs : List InferenceInput

/-- Payload of one output tensor: float rows or strings. -/
inductive OutputData where
  | floats (rows : List (List ℝ))
  | strs (ss : List String)

/-- InferenceOutput: name, shape, datatype, data. -/
structure InferenceOutput where
  name : String
  shape : List Nat
  datatype : String
  data : OutputData

/-- InferenceResponse: echoed id, model name/version and output tensors. -/
structure InferenceResponse where
  id : Option String
  model_name : String
  model_version : String
  outputs : List InferenceOutput

-- ── Classifier (server.py lines 70-97) ───────────────────────────────────────

def MODEL_NAME : String := "iris-classifier"

def MODEL_VERSION : String := "v1.0.0"

/-- The fixed label set of the classifier. -/
def CLASSES : List String := ["setosa", "versicolor", "virginica"]

def strEmpty : String := ""

/-- Indexing self.CLASSES[i]; i is always below 3 where this is used. -/
def className (i : Fin 3) : String := CLASSES.getD i.val strEmpty

/-- logits.max(axis=1) on one row of three logits. -/
noncomputable def rowMax (l : Fin 3 → ℝ) : ℝ := max (max (l 0) (l 1)) (l 2)

/-- Numerically stable softmax of one row: subtract the row maximum before
exponentiation, divide by the row sum (server.py lines 90-91). -/
noncomputable def softmax (l : Fin 3 → ℝ) : Fin 3 → ℝ :=
  fun c => Real.exp (l c - rowMax l) / ∑ j, Real.exp (l j - rowMax l)

/-- np.argmax on one row of three values: first occurrence of the maximum
(the scan replaces the current best only on a strictly greater value). -/
noncomputable def argmax3 (p : Fin 3 → ℝ) : Fin 3 :=
  if p 0 < p 1 then (if p 1 < p 2 then 2 else 1)
  else (if p 0 < p 2 then 2 else 0)

/-- One row of inputs @ self.weights: logits[c] = sum over f of row[f] * w f c. -/
noncomputable def logitsRow (w : Fin 4 → Fin 3 → ℝ) (r : List ℚ) : Fin 3 → ℝ :=
  fun c => ∑ f, ((r.getD f.val 0 : ℚ) : ℝ) * w f c

/-- The dictionary returned by IrisClassifier.predict. -/
structure PredictResult where
  probabilities : List (List ℝ)
  predicted_class : List String
  confidence : List ℝ

def errDim : String := "matmul: mismatch with weight matrix of shape 4x3"

/-- IrisClassifier.predict: the matrix product raises unless every row has
exactly 4 features (the weight matrix is np.random.randn(4, 3)); otherwise
probabilities, predicted classes and confidences are computed per row. -/
noncomputable def predict (w : Fin 4 → Fin 3 → ℝ) (batch : List (List ℚ)) :
    Except String PredictResult :=
  if batch.all (fun r => r.length == 4) then
    Except.ok
      { probabilities := batch.map (fun r => List.ofFn (softmax (logitsRow w r)))
        predicted_class := batch.map (fun r => className (argmax3 (softmax (logitsRow w r))))
        confidence := batch.map (fun r => rowMax (softmax (logitsRow w r))) }
  else Except.error errDim

-- ── Metrics state and event trace ────────────────────────────────────────────

/-- One metric side effect of the handler, in execution order. decodeStart
marks that line 144 (the decode of the first input) was reached. -/
inductive Event where
  | gaugeInc
  | gaugeDec
  | decodeStart
  | countSuccess
  | countError
  | observeLatency
  deriving DecidableEq, BEq

/-- The Prometheus metrics of server.py lines 32-44, reduced to the
quantities the specification talks about: the success/error request
counters, the number of latency observations, the active-request gauge
and the model-loaded gauge. -/
structure MetricsState where
  successCount : Nat
  errorCount : Nat
  latencyObs : Nat
  activeRequests : Int
  modelLoaded : Nat

def applyEvent (m : MetricsState) : Event → MetricsState
  | Event.gaugeInc => { m with activeRequests := m.activeRequests + 1 }
  | Event.gaugeDec => { m with activeRequests := m.activeRequests - 1 }
  | Event.decodeStart => m
  | Event.countSuccess => { m with successCount := m.successCount + 1 }
  | Event.countError => { m with errorCount := m.errorCount + 1 }
  | Event.observeLatency => { m with latencyObs := m.latencyObs + 1 }

def applyEvents (m : MetricsState) (evs : List Event) : MetricsState :=
  evs.foldl applyEvent m

/-- Server state: the model's loaded flag plus the shared metrics. -/
structure ServerState where
  loaded : Bool
  metrics : MetricsState

-- ── Inference handler (server.py lines 134-184) ──────────────────────────────

/-- Outcome of the infer route handler: 503 (raised before the try block),
200 with a response body, or 500 from the generic except branch. -/
inductive HandlerOutcome where
  | notReady
  | ok (resp : InferenceResponse)
  | internalError (msg : String)

def HandlerOutcome.isOk : HandlerOutcome → Bool
  | HandlerOutcome.ok _ => true
  | _ => false

def errIndex : String := "list index out of range"

/-- request.inputs[0] followed by np.array and the 1-D promotion
raw.reshape(1, -1) (server.py lines 144-146): an empty inputs list raises
IndexError inside the try block. -/
def tryDecode (inputs : List InferenceInput) : Except String (List (List ℚ)) :=
  match inputs with
  | [] => Except.error errIndex
  | inp :: _ =>
    match npArray inp.data with
    | Except.error e => Except.error e
    | Except.ok (NDArr.one xs) => Except.ok [xs]
    | Except.ok (NDArr.two rows) => Except.ok rows

/-- npShape2 models list(np.array(rows).shape) for the rectangular
probability rows produced by predict; the empty list is 1-D of length 0. -/
def npShape2 (rows : List (List ℝ)) : List Nat :=
  match rows with
  | [] => [0]
  | r :: rs => [rs.length + 1, r.length]

/-- The successful response body (server.py lines 158-176): exactly two
outputs, probabilities (FP32) then predicted_class (BYTES), echoing the
request id. -/
noncomputable def encodeResponse (rid : Option String) (res : PredictResult) :
    InferenceResponse :=
  { id := rid
    model_name := MODEL_NAME
    model_version := MODEL_VERSION
    outputs :=
      [ { name := "probabilities"
          shape := npShape2 res.probabilities
          datatype := "FP32"
          data := OutputData.floats res.probabilities }
      , { name := "predicted_class"
          shape := [res.predicted_class.length]
          datatype := "BYTES"
          data := OutputData.strs res.predicted_class } ] }

/-- The body of the try block: decode, predict, encode; the first failure
(IndexError, array conversion, matrix-product mismatch) escapes to the
except branch. -/
noncomputable def tryBody (w : Fin 4 → Fin 3 → ℝ) (req : InferenceRequest) :
    Except String InferenceResponse :=
  match tryDecode req.inputs with
  | Except.error e => Except.error e
  | Except.ok batch =>
    match predict w batch with
    | Except.error e => Except.error e
    | Except.ok res => Except.ok (encodeResponse req.id res)

/-- The infer handler: 503 before anything else when the model is not
loaded; otherwise gauge increment, the try body, the outcome counters with
a latency observation only on success, and the finally gauge decrement.
The event list is the metric side effects in execution order. -/
noncomputable def inferResult (w : Fin 4 → Fin 3 → ℝ) (st : ServerState)
    (req : InferenceRequest) : HandlerOutcome × List Event :=
  if st.loaded then
    match tryBody w req with
    | Except.ok resp =>
      (HandlerOutcome.ok resp,
        [Event.gaugeInc, Event.decodeStart, Event.countSuccess,
          Event.observeLatency, Event.gaugeDec])
    | Except.error e =>
      (HandlerOutcome.internalError e,
        [Event.gaugeInc, Event.decodeStart, Event.countError, Event.gaugeDec])
  else (HandlerOutcome.notReady, [])

-- ── Server operations (routes plus model load) ───────────────────────────────

/-- The operations that can touch the server state: IrisClassifier.load and
the five routes. Only load and infer mutate anything. -/
inductive ServerOp where
  | loadModel
  | inferCall (req : InferenceRequest)
  | healthCheck
  | readyCheck
  | metadataCall
  | metricsCall

/-- State transition of one operation. load sets the loaded flag and the
model-loaded gauge; infer folds its metric events into the state; the
read-only routes change nothing. -/
noncomputable def stepOp (w : Fin 4 → Fin 3 → ℝ) (st : ServerState) :
    ServerOp → ServerState
  | ServerOp.loadModel =>
    { loaded := true, metrics := { st.metrics with modelLoaded := 1 } }
  | ServerOp.inferCall req =>
    { st with metrics := applyEvents st.metrics (inferResult w st req).2 }
  | _ => st

-- ── FastAPI boundary (pydantic body validation) ──────────────────────────────

/-- A raw request body before schema validation: the inputs field is absent
or ill-typed (none) or a well-typed list of input tensors (some). -/
structure RawRequest where
  id : Option String
  inputs : Option (List InferenceInput)

/-- Pydantic validation of InferenceRequest: the inputs field must be a
well-typed list, of any length (List places no lower bound). -/
def parseRequest (raw : RawRequest) : Option InferenceRequest :=
  match raw.inputs with
  | none => none
  | some ins => some { id := raw.id, inputs := ins }

/-- Route outcome: 422 from body validation, or the handler's outcome. -/
inductive RouteOutcome where
  | invalidRequest
  | handled (h : HandlerOutcome)

/-- The full route: FastAPI rejects a body that fails schema validation
with 422 before the handler runs; otherwise the handler executes. -/
noncomputable def handleInferRoute (w : Fin 4 → Fin 3 → ℝ) (st : ServerState)
    (raw : RawRequest) : RouteOutcome × List Event :=
  match parseRequest raw with
  | none => (RouteOutcome.invalidRequest, [])
  | some req => (RouteOutcome.handled (inferResult w st req).1, (inferResult w st req).2)

-- ── Metrics registry (server.py lines 22-44) ─────────────────────────────────

inductive MetricKind where
  | counter
  | histogram
  | gauge
  deriving DecidableEq

/-- A metric collector as created by the prometheus_client constructors:
kind, name, description, optional label names, optional histogram buckets. -/
structure MetricSpec where
  kind : MetricKind
  mname : String
  description : String
  labelNames : List String
  buckets : List ℚ

/-- The process-wide REGISTRY: its _names_to_collectors mapping. -/
structure Registry where
  collectors : List (String × MetricSpec)

/-- A prometheus_client metric constructor: registers the collector under
its name, raising ValueError when the name is already taken. -/
def registerMetric (r : Registry) (s : MetricSpec) :
    Except Unit (Registry × MetricSpec) :=
  match r.collectors.lookup s.mname with
  | some _ => Except.error ()
  | none => Except.ok ({ collectors := (s.mname, s) :: r.collectors }, s)

/-- get_or_create_metric (server.py lines 22-30): try the constructor; on
ValueError fall back to REGISTRY._names_to_collectors.get(name). -/
def get_or_create_metric (r : Registry) (s : MetricSpec) :
    Registry × Option MetricSpec :=
  match registerMetric r s with
  | Except.ok (rNew, m) => (rNew, some m)
  | Except.error _ => (r, r.collectors.lookup s.mname)

-- ── Helper lemmas ────────────────────────────────────────────────────────────

theorem fin3_all (P : Fin 3 → Prop) (h0 : P 0) (h1 : P 1) (h2 : P 2) (j : Fin 3) : P j := by
  rcases j with ⟨v, hv⟩
  interval_cases v
  · exact h0
  · exact h1
  · exact h2

/-- Each softmax row sums to exactly one: the exponentials are positive, so
dividing by their sum normalises. -/
theorem sum_softmax (l : Fin 3 → ℝ) : (∑ c, softmax l c) = 1 := by
  have hpos : 0 < ∑ j, Real.exp (l j - rowMax l) :=
    Finset.sum_pos (fun j _ => Real.exp_pos _) ⟨0, Finset.mem_univ 0⟩
  unfold softmax
  rw [← Finset.sum_div]
  exact div_self (ne_of_gt hpos)

theorem sum_ofFn_softmax (l : Fin 3 → ℝ) : (List.ofFn (softmax l)).sum = 1 := by
  rw [List.sum_ofFn]
  exact sum_softmax l

/-- The argmax index carries a maximal value. -/
theorem argmax3_le (p : Fin 3 → ℝ) : ∀ j, p j ≤ p (argmax3 p) := by
  refine fin3_all _ ?_ ?_ ?_ <;> unfold argmax3 <;> split_ifs <;> linarith

/-- First-occurrence tie break: every strictly earlier index carries a
strictly smaller value. -/
theorem argmax3_first (p : Fin 3 → ℝ) :
    ∀ j, j < argmax3 p → p j < p (argmax3 p) := by
  refine fin3_all _ ?_ ?_ ?_ <;> unfold argmax3 <;> split_ifs <;> intro hlt <;>
    first
      | linarith
      | exact absurd hlt (by decide)

theorem className_mem (i : Fin 3) : className i ∈ CLASSES := by
  refine fin3_all (fun j => className j ∈ CLASSES) ?_ ?_ ?_ i <;> decide

theorem all_len4_iff (batch : List (List ℚ)) :
    (batch.all (fun r => r.length == 4) = true) ↔ ∀ r ∈ batch, r.length = 4 := by
  simp [List.all_eq_true]

theorem allNums_length {l : List JVal} {xs : List ℚ} (h : allNums l = some xs) :
    leafCountList l = xs.length ∧ xs.length = l.length := by
  induction l generalizing xs with
  | nil =>
    simp only [allNums, Option.some.injEq] at h
    subst h
    simp [leafCountList]
  | cons v vs ih =>
    cases v with
    | num q =>
      simp only [allNums, Option.map_eq_some'] at h
      obtain ⟨ys, hys, rfl⟩ := h
      obtain ⟨h1, h2⟩ := ih hys
      simp [leafCountList, leafCount, h1, h2]
      omega
    | str s => simp [allNums] at h
    | arr es => simp [allNums] at h

theorem allNums_map_num (r : List ℚ) : allNums (r.map JVal.num) = some r := by
  induction r with
  | nil => rfl
  | cons q qs ih => simp [allNums, ih]

theorem allRows_spec {l : List JVal} {rows : List (List ℚ)}
    (h : allRows l = some rows) :
    leafCountList l = (rows.map List.length).sum ∧ rows.length = l.length := by
  induction l generalizing rows with
  | nil =>
    simp only [allRows, Option.some.injEq] at h
    subst h
    simp [leafCountList]
  | cons v vs ih =>
    simp only [allRows] at h
    cases hR : asRow v with
    | none => rw [hR] at h; simp at h
    | some r =>
      rw [hR] at h
      cases hRs : allRows vs with
      | none => rw [hRs] at h; simp at h
      | some rs =>
        rw [hRs] at h
        simp only [Option.some.injEq] at h
        subst h
        obtain ⟨h1, h2⟩ := ih hRs
        cases v with
        | arr es =>
          simp only [asRow] at hR
          have hc := (allNums_length hR).1
          simp [leafCountList, leafCount, hc, h1, h2]
        | num q => simp [asRow] at hR
        | str s => simp [asRow] at hR

theorem allRows_map (rows : List (List ℚ)) :
    allRows (rows.map (fun r => JVal.arr (r.map JVal.num))) = some rows := by
  induction rows with
  | nil => rfl
  | cons r rs ih => simp [allRows, asRow, allNums_map_num, ih]

theorem allNums_arr_head (xs : List JVal) (l : List JVal) :
    allNums (JVal.arr xs :: l) = none := rfl

theorem sum_lengths_all4 {rows : List (List ℚ)} (h : ∀ r ∈ rows, r.length = 4) :
    (rows.map List.length).sum = 4 * rows.length := by
  induction rows with
  | nil => simp
  | cons r rs ih =>
    have hr : r.length = 4 := h r (by simp)
    have hrs : ∀ x ∈ rs, x.length = 4 := fun x hx => h x (by simp [hx])
    simp [hr, ih hrs]
    ring

theorem npArray_one_inv {d : List JVal} {xs : List ℚ}
    (h : npArray d = Except.ok (NDArr.one xs)) : allNums d = some xs := by
  unfold npArray at h
  cases hA : allNums d with
  | some ys =>
    rw [hA] at h
    simp only [Except.ok.injEq, NDArr.one.injEq] at h
    rw [h]
  | none =>
    rw [hA] at h
    cases hR : allRows d with
    | none => rw [hR] at h; simp at h
    | some rows =>
      rw [hR] at h
      cases rows with
      | nil => simp at h
      | cons r0 rs =>
        by_cases hc : rs.all (fun r => r.length == r0.length) = true
        · simp [hc] at h
        · simp [hc] at h

theorem npArray_two_inv {d : List JVal} {rows : List (List ℚ)}
    (h : npArray d = Except.ok (NDArr.two rows)) :
    allRows d = some rows ∧ rows ≠ [] := by
  unfold npArray at h
  cases hA : allNums d with
  | some ys => rw [hA] at h; simp at h
  | none =>
    rw [hA] at h
    cases hR : allRows d with
    | none => rw [hR] at h; simp at h
    | some rows0 =>
      rw [hR] at h
      cases rows0 with
      | nil => simp at h
      | cons r0 rs =>
        by_cases hc : rs.all (fun r => r.length == r0.length) = true
        · simp only [hc, if_true, Except.ok.injEq, NDArr.two.injEq] at h
          subst h
          exact ⟨rfl, by simp⟩
        · simp [hc] at h

theorem predict_ok_all {w : Fin 4 → Fin 3 → ℝ} {batch : List (List ℚ)}
    {res : PredictResult} (h : predict w batch = Except.ok res) :
    batch.all (fun r => r.length == 4) = true := by
  unfold predict at h
  by_cases hc : batch.all (fun r => r.length == 4) = true
  · exact hc
  · simp [hc] at h

theorem predict_eq_ok {w : Fin 4 → Fin 3 → ℝ} {batch : List (List ℚ)}
    (h : batch.all (fun r => r.length == 4) = true) :
    predict w batch = Except.ok
      { probabilities := batch.map (fun r => List.ofFn (softmax (logitsRow w r)))
        predicted_class := batch.map (fun r => className (argmax3 (softmax (logitsRow w r))))
        confidence := batch.map (fun r => rowMax (softmax (logitsRow w r))) } := by
  unfold predict
  rw [if_pos h]

theorem tryDecode_ok_inv {inp : InferenceInput} {rest : List InferenceInput}
    {batch : List (List ℚ)} (h : tryDecode (inp :: rest) = Except.ok batch) :
    (∃ xs, npArray inp.data = Except.ok (NDArr.one xs) ∧ batch = [xs]) ∨
      npArray inp.data = Except.ok (NDArr.two batch) := by
  simp only [tryDecode] at h
  cases hN : npArray inp.data with
  | error e => rw [hN] at h; simp at h
  | ok a =>
    rw [hN] at h
    cases a with
    | one xs =>
      simp at h
      exact Or.inl ⟨xs, rfl, h.symm⟩
    | two rows =>
      simp at h
      exact Or.inr (by rw [h])

theorem tryBody_ok_inv {w : Fin 4 → Fin 3 → ℝ} {req : InferenceRequest}
    {resp : InferenceResponse} (h : tryBody w req = Except.ok resp) :
    ∃ batch res, tryDecode req.inputs = Except.ok batch ∧
      predict w batch = Except.ok res ∧ resp = encodeResponse req.id res := by
  unfold tryBody at h
  cases hD : tryDecode req.inputs with
  | error e => rw [hD] at h; simp at h
  | ok batch =>
    rw [hD] at h
    simp only at h
    cases hP : predict w batch with
    | error e => rw [hP] at h; simp at h
    | ok res =>
      rw [hP] at h
      simp at h
      exact ⟨batch, res, rfl, hP, h.symm⟩

theorem tryBody_ok_of (w : Fin 4 → Fin 3 → ℝ) (req : InferenceRequest)
    (batch : List (List ℚ)) (res : PredictResult)
    (hD : tryDecode req.inputs = Except.ok batch)
    (hP : predict w batch = Except.ok res) :
    tryBody w req = Except.ok (encodeResponse req.id res) := by
  unfold tryBody
  rw [hD]
  simp only
  rw [hP]

theorem inferResult_error {w : Fin 4 → Fin 3 → ℝ} {st : ServerState}
    {req : InferenceRequest} {e : String} (hl : st.loaded = true)
    (h : tryBody w req = Except.error e) :
    inferResult w st req =
      (HandlerOutcome.internalError e,
        [Event.gaugeInc, Event.decodeStart, Event.countError, Event.gaugeDec]) := by
  simp [inferResult, hl, h]

theorem inferResult_ok {w : Fin 4 → Fin 3 → ℝ} {st : ServerState}
    {req : InferenceRequest} {resp : InferenceResponse} (hl : st.loaded = true)
    (h : tryBody w req = Except.ok resp) :
    inferResult w st req =
      (HandlerOutcome.ok resp,
        [Event.gaugeInc, Event.decodeStart, Event.countSuccess,
          Event.observeLatency, Event.gaugeDec]) := by
  simp [inferResult, hl, h]

theorem inferResult_notReady {w : Fin 4 → Fin 3 → ℝ} {st : ServerState}
    {req : InferenceRequest} (hl : st.loaded = false) :
    inferResult w st req = (HandlerOutcome.notReady, []) := by
  simp [inferResult, hl]

/-- If the try block completes, the first input's flattened element count is
a positive multiple of the expected feature count 4. -/
theorem tryBody_ok_count {w : Fin 4 → Fin 3 → ℝ} {req : InferenceRequest}
    {inp : InferenceInput} {rest : List InferenceInput} {resp : InferenceResponse}
    (hi : req.inputs = inp :: rest) (h : tryBody w req = Except.ok resp) :
    0 < leafCountList inp.data ∧ 4 ∣ leafCountList inp.data := by
  obtain ⟨batch, res, hD, hP, _⟩ := tryBody_ok_inv h
  rw [hi] at hD
  have hall := (all_len4_iff _).1 (predict_ok_all hP)
  rcases tryDecode_ok_inv hD with ⟨xs, hN, hb⟩ | hN
  · subst hb
    have h4 : xs.length = 4 := hall xs (by simp)
    have hc := (allNums_length (npArray_one_inv hN)).1
    rw [hc, h4]
    exact ⟨by norm_num, ⟨1, by norm_num⟩⟩
  · obtain ⟨hR, hne⟩ := npArray_two_inv hN
    have hcount := (allRows_spec hR).1
    have hsum := sum_lengths_all4 hall
    rw [hcount, hsum]
    have hpos : 0 < batch.length := List.length_pos.2 hne
    exact ⟨by omega, ⟨batch.length, rfl⟩⟩

-- ── Claims ───────────────────────────────────────────────────────────────────

/-- C1: on a ready model, an inference request whose first input tensor has a
flattened element count that is not a positive multiple of the expected
feature count 4 always produces the internal error response (HTTP 500, a
client-facing error) and never the 200 success response. -/
theorem infer_malformed_never_success (w : Fin 4 → Fin 3 → ℝ) (st : ServerState)
    (req : InferenceRequest) (inp : InferenceInput) (rest : List InferenceInput)
    (hl : st.loaded = true) (hi : req.inputs = inp :: rest)
    (hm : ¬ (0 < leafCountList inp.data ∧ 4 ∣ leafCountList inp.data)) :
    (∃ e, (inferResult w st req).1 = HandlerOutcome.internalError e) ∧
      ∀ resp, (inferResult w st req).1 ≠ HandlerOutcome.ok resp := by
  cases hB : tryBody w req with
  | ok resp => exact absurd (tryBody_ok_count hi hB) hm
  | error e =>
    rw [inferResult_error hl hB]
    exact ⟨⟨e, rfl⟩, fun resp h => by simp at h⟩

/-- Witness for C1: a ready server given a flat 3-element tensor (count 3 is
not a positive multiple of 4) answers with the internal error, not 200. -/
theorem infer_malformed_never_success_witness :
    ((⟨true, ⟨0, 0, 0, 0, 1⟩⟩ : ServerState).loaded = true) ∧
    (¬ (0 < leafCountList [JVal.num 1, JVal.num 2, JVal.num 3] ∧
        4 ∣ leafCountList [JVal.num 1, JVal.num 2, JVal.num 3])) ∧
    ((∃ e, (inferResult (fun _ _ => 0) ⟨true, ⟨0, 0, 0, 0, 1⟩⟩
          ⟨none, [⟨"input", [1, 3], "FP32", [JVal.num 1, JVal.num 2, JVal.num 3]⟩]⟩).1
        = HandlerOutcome.internalError e) ∧
      ∀ resp, (inferResult (fun _ _ => 0) ⟨true, ⟨0, 0, 0, 0, 1⟩⟩
          ⟨none, [⟨"input", [1, 3], "FP32", [JVal.num 1, JVal.num 2, JVal.num 3]⟩]⟩).1
        ≠ HandlerOutcome.ok resp) :=
  ⟨rfl, by simp [leafCountList, leafCount]; omega,
    infer_malformed_never_success _ _ _ _ _ rfl rfl
      (by simp [leafCountList, leafCount]; omega)⟩

/-- C3: the active-request gauge returns exactly to its pre-call value after
every single call, on every path; on every handled request (ready model)
the trace begins with the gauge increment and ends with the gauge
decrement, and increments and decrements are in bijection. -/
theorem active_gauge_balanced (w : Fin 4 → Fin 3 → ℝ) (st : ServerState)
    (req : InferenceRequest) :
    (applyEvents st.metrics (inferResult w st req).2).activeRequests
        = st.metrics.activeRequests
    ∧ (inferResult w st req).2.count Event.gaugeInc
        = (inferResult w st req).2.count Event.gaugeDec
    ∧ (st.loaded = true →
        (inferResult w st req).2.head? = some Event.gaugeInc
        ∧ (inferResult w st req).2.getLast? = some Event.gaugeDec) := by
  by_cases hl : st.loaded = true
  · cases hB : tryBody w req with
    | ok resp =>
      rw [inferResult_ok hl hB]
      refine ⟨?_, rfl, fun _ => ⟨rfl, rfl⟩⟩
      simp [applyEvents, applyEvent]
    | error e =>
      rw [inferResult_error hl hB]
      refine ⟨?_, rfl, fun _ => ⟨rfl, rfl⟩⟩
      simp [applyEvents, applyEvent]
  · have hl' : st.loaded = false := by simpa using hl
    rw [inferResult_notReady hl']
    exact ⟨rfl, rfl, fun h => absurd h hl⟩

/-- Witness for C3: concrete ready state and request; the gauge is restored
and the trace is bracketed by the gauge increment and decrement. -/
theorem active_gauge_balanced_witness :
    (applyEvents (⟨2, 5, 7, 3, 1⟩ : MetricsState)
        (inferResult (fun _ _ => 1) ⟨true, ⟨2, 5, 7, 3, 1⟩⟩ ⟨none, []⟩).2).activeRequests
      = (⟨2, 5, 7, 3, 1⟩ : MetricsState).activeRequests
    ∧ (inferResult (fun _ _ => 1) ⟨true, ⟨2, 5, 7, 3, 1⟩⟩
        ⟨none, []⟩).2.count Event.gaugeInc
      = (inferResult (fun _ _ => 1) ⟨true, ⟨2, 5, 7, 3, 1⟩⟩
        ⟨none, []⟩).2.count Event.gaugeDec
    ∧ ((⟨true, ⟨2, 5, 7, 3, 1⟩⟩ : ServerState).loaded = true →
        (inferResult (fun _ _ => 1) ⟨true, ⟨2, 5, 7, 3, 1⟩⟩
          ⟨none, []⟩).2.head? = some Event.gaugeInc
        ∧ (inferResult (fun _ _ => 1) ⟨true, ⟨2, 5, 7, 3, 1⟩⟩
          ⟨none, []⟩).2.getLast? = some Event.gaugeDec) :=
  active_gauge_balanced (fun _ _ => 1) ⟨true, ⟨2, 5, 7, 3, 1⟩⟩ ⟨none, []⟩

/-- C4: on every numeric batch whose rows match the weight matrix's input
dimension 4, predict succeeds, its probabilities are the numerically stable
softmax (row maximum subtracted before exponentiation, divided by the row
sum) of the logits rows, and every probability row sums to exactly 1,
hence to 1.0 within 1e-3. -/
theorem probabilities_rows_sum_to_one (w : Fin 4 → Fin 3 → ℝ)
    (batch : List (List ℚ)) (h4 : ∀ r ∈ batch, r.length = 4) :
    ∃ res, predict w batch = Except.ok res ∧
      res.probabilities = batch.map (fun r => List.ofFn (softmax (logitsRow w r))) ∧
      ∀ row ∈ res.probabilities, row.sum = 1 ∧ |row.sum - 1| ≤ 1 / 1000 := by
  refine ⟨_, predict_eq_ok ((all_len4_iff batch).2 h4), rfl, ?_⟩
  intro row hrow
  simp only [List.mem_map] at hrow
  obtain ⟨r, _, rfl⟩ := hrow
  rw [sum_ofFn_softmax (logitsRow w r)]
  norm_num

/-- Witness for C4: the concrete batch [[1, 2, 3, 4]] with all-ones weights. -/
theorem probabilities_rows_sum_to_one_witness :
    (∀ r ∈ [[(1 : ℚ), 2, 3, 4]], r.length = 4) ∧
    (∃ res, predict (fun _ _ => 1) [[(1 : ℚ), 2, 3, 4]] = Except.ok res ∧
      res.probabilities
          = [[(1 : ℚ), 2, 3, 4]].map
              (fun r => List.ofFn (softmax (logitsRow (fun _ _ => 1) r))) ∧
      ∀ row ∈ res.probabilities, row.sum = 1 ∧ |row.sum - 1| ≤ 1 / 1000) :=
  ⟨by decide, probabilities_rows_sum_to_one (fun _ _ => 1) [[(1 : ℚ), 2, 3, 4]] (by decide)⟩

/-- C5: every predicted class entry equals CLASSES indexed by the argmax of
the corresponding probability row, the argmax is the first occurrence of
the row maximum (every index carries no more than it, every strictly
earlier index strictly less), and the entry is always a member of the
fixed label set. -/
theorem predicted_class_is_argmax_label (w : Fin 4 → Fin 3 → ℝ)
    (batch : List (List ℚ)) (h4 : ∀ r ∈ batch, r.length = 4)
    (n : Nat) (r : List ℚ) (hr : batch.get? n = some r) :
    ∃ res, predict w batch = Except.ok res ∧
      res.predicted_class.get? n
          = some (className (argmax3 (softmax (logitsRow w r)))) ∧
      (∀ j, softmax (logitsRow w r) j
          ≤ softmax (logitsRow w r) (argmax3 (softmax (logitsRow w r)))) ∧
      (∀ j, j < argmax3 (softmax (logitsRow w r)) →
          softmax (logitsRow w r) j
            < softmax (logitsRow w r) (argmax3 (softmax (logitsRow w r)))) ∧
      (∀ s, res.predicted_class.get? n = some s → s ∈ CLASSES) := by
  refine ⟨_, predict_eq_ok ((all_len4_iff batch).2 h4), ?_,
    argmax3_le _, argmax3_first _, ?_⟩
  · have hr' : batch[n]? = some r := by
      rw [← List.get?_eq_getElem?]
      exact hr
    simp [List.get?_eq_getElem?, List.getElem?_map, hr']
  · intro s hs
    simp [List.get?_eq_getElem?, List.getElem?_map] at hs
    obtain ⟨a, _, rfl⟩ := hs
    exact className_mem _

/-- Witness for C5: the concrete batch [[1, 2, 3, 4]] at row 0. -/
theorem predicted_class_is_argmax_label_witness :
    (∀ r ∈ [[(1 : ℚ), 2, 3, 4]], r.length = 4) ∧
    ([[(1 : ℚ), 2, 3, 4]].get? 0 = some [(1 : ℚ), 2, 3, 4]) ∧
    (∃ res, predict (fun _ _ => 2) [[(1 : ℚ), 2, 3, 4]] = Except.ok res ∧
      res.predicted_class.get? 0
          = some (className (argmax3 (softmax (logitsRow (fun _ _ => 2) [(1 : ℚ), 2, 3, 4])))) ∧
      (∀ j, softmax (logitsRow (fun _ _ => 2) [(1 : ℚ), 2, 3, 4]) j
          ≤ softmax (logitsRow (fun _ _ => 2) [(1 : ℚ), 2, 3, 4])
              (argmax3 (softmax (logitsRow (fun _ _ => 2) [(1 : ℚ), 2, 3, 4])))) ∧
      (∀ j, j < argmax3 (softmax (logitsRow (fun _ _ => 2) [(1 : ℚ), 2, 3, 4])) →
          softmax (logitsRow (fun _ _ => 2) [(1 : ℚ), 2, 3, 4]) j
            < softmax (logitsRow (fun _ _ => 2) [(1 : ℚ), 2, 3, 4])
                (argmax3 (softmax (logitsRow (fun _ _ => 2) [(1 : ℚ), 2, 3, 4])))) ∧
      (∀ s, res.predicted_class.get? 0 = some s → s ∈ CLASSES)) :=
  ⟨by decide, rfl,
    predicted_class_is_argmax_label (fun _ _ => 2) [[(1 : ℚ), 2, 3, 4]]
      (by decide) 0 [(1 : ℚ), 2, 3, 4] rfl⟩

/-- C6: on a ready model, each handled request moves the metrics by exactly
one counted outcome: a success adds one to the success counter and one
latency observation (error counter untouched); a failure adds one to the
error counter only (no latency observation); the gauge is restored in both
cases, as the whole-record equalities state. -/
theorem request_counter_partition (w : Fin 4 → Fin 3 → ℝ) (st : ServerState)
    (req : InferenceRequest) (hl : st.loaded = true) :
    ((inferResult w st req).1.isOk = true →
        applyEvents st.metrics (inferResult w st req).2
          = { st.metrics with
                successCount := st.metrics.successCount + 1
                latencyObs := st.metrics.latencyObs + 1 })
    ∧ ((inferResult w st req).1.isOk = false →
        applyEvents st.metrics (inferResult w st req).2
          = { st.metrics with errorCount := st.metrics.errorCount + 1 }) := by
  cases hB : tryBody w req with
  | ok resp =>
    rw [inferResult_ok hl hB]
    constructor
    · intro _
      simp [applyEvents, applyEvent]
    · intro hno
      simp [HandlerOutcome.isOk] at hno
  | error e =>
    rw [inferResult_error hl hB]
    constructor
    · intro hyes
      simp [HandlerOutcome.isOk] at hyes
    · intro _
      simp [applyEvents, applyEvent]

/-- Witness for C6: a ready server with an empty inputs list (failure path). -/
theorem request_counter_partition_witness :
    ((⟨true, ⟨4, 2, 4, 0, 1⟩⟩ : ServerState).loaded = true) ∧
    (((inferResult (fun _ _ => 0) ⟨true, ⟨4, 2, 4, 0, 1⟩⟩ ⟨none, []⟩).1.isOk = true →
        applyEvents (⟨4, 2, 4, 0, 1⟩ : MetricsState)
            (inferResult (fun _ _ => 0) ⟨true, ⟨4, 2, 4, 0, 1⟩⟩ ⟨none, []⟩).2
          = { (⟨4, 2, 4, 0, 1⟩ : MetricsState) with
                successCount := (⟨4, 2, 4, 0, 1⟩ : MetricsState).successCount + 1
                latencyObs := (⟨4, 2, 4, 0, 1⟩ : MetricsState).latencyObs + 1 })
    ∧ ((inferResult (fun _ _ => 0) ⟨true, ⟨4, 2, 4, 0, 1⟩⟩ ⟨none, []⟩).1.isOk = false →
        applyEvents (⟨4, 2, 4, 0, 1⟩ : MetricsState)
            (inferResult (fun _ _ => 0) ⟨true, ⟨4, 2, 4, 0, 1⟩⟩ ⟨none, []⟩).2
          = { (⟨4, 2, 4, 0, 1⟩ : MetricsState) with
                errorCount := (⟨4, 2, 4, 0, 1⟩ : MetricsState).errorCount + 1 })) :=
  ⟨rfl, request_counter_partition (fun _ _ => 0) ⟨true, ⟨4, 2, 4, 0, 1⟩⟩ ⟨none, []⟩ rfl⟩

/-- C7: metric registration is idempotent — when the name is already in the
registry (whatever the kind, labelled or not), get_or_create_metric leaves
the registry unchanged and returns the existing collector instead of
failing. -/
theorem get_or_create_metric_idempotent (r : Registry) (s : MetricSpec)
    (m : MetricSpec) (h : r.collectors.lookup s.mname = some m) :
    get_or_create_metric r s = (r, some m) := by
  have hreg : registerMetric r s = Except.error () := by
    unfold registerMetric
    rw [h]
  unfold get_or_create_metric
  rw [hreg]
  simp only
  rw [h]

/-- Witness for C7: re-registering the labelled counter name that is
already present returns the stored collector and the unchanged registry. -/
theorem get_or_create_metric_idempotent_witness :
    ((⟨[("inference_requests_total",
        ⟨MetricKind.counter, "inference_requests_total", "Total inference requests",
          ["model", "status"], []⟩)]⟩ : Registry).collectors.lookup
        (⟨MetricKind.counter, "inference_requests_total", "duplicate registration",
          ["model", "status"], []⟩ : MetricSpec).mname
      = some ⟨MetricKind.counter, "inference_requests_total", "Total inference requests",
          ["model", "status"], []⟩) ∧
    (get_or_create_metric
        ⟨[("inference_requests_total",
          ⟨MetricKind.counter, "inference_requests_total", "Total inference requests",
            ["model", "status"], []⟩)]⟩
        ⟨MetricKind.counter, "inference_requests_total", "duplicate registration",
          ["model", "status"], []⟩
      = (⟨[("inference_requests_total",
          ⟨MetricKind.counter, "inference_requests_total", "Total inference requests",
            ["model", "status"], []⟩)]⟩,
        some ⟨MetricKind.counter, "inference_requests_total", "Total inference requests",
          ["model", "status"], []⟩)) :=
  ⟨rfl,
    get_or_create_metric_idempotent _ _
      ⟨MetricKind.counter, "inference_requests_total", "Total inference requests",
        ["model", "status"], []⟩ rfl⟩

/-- C8: while the model is not loaded, every inference request is rejected
with the service-unavailable outcome, with an empty side-effect trace — so
before any decoding is attempted and before any metric is touched — and no
server operation ever takes the loaded flag from true back to false. -/
theorem not_ready_rejects_and_ready_irreversible (w : Fin 4 → Fin 3 → ℝ)
    (st : ServerState) (req : InferenceRequest) (op : ServerOp) :
    (st.loaded = false →
        (inferResult w st req).1 = HandlerOutcome.notReady
        ∧ (inferResult w st req).2 = []
        ∧ applyEvents st.metrics (inferResult w st req).2 = st.metrics)
    ∧ (st.loaded = true → (stepOp w st op).loaded = true) := by
  constructor
  · intro hl
    rw [inferResult_notReady hl]
    exact ⟨rfl, rfl, rfl⟩
  · intro hl
    cases op with
    | loadModel => rfl
    | inferCall req2 => simpa [stepOp] using hl
    | healthCheck => simpa [stepOp] using hl
    | readyCheck => simpa [stepOp] using hl
    | metadataCall => simpa [stepOp] using hl
    | metricsCall => simpa [stepOp] using hl

/-- Witness for C8: a not-yet-loaded server rejects a well-formed request
without touching the metrics, and a ready-flag check after a step. -/
theorem not_ready_rejects_and_ready_irreversible_witness :
    ((⟨false, ⟨0, 0, 0, 0, 0⟩⟩ : ServerState).loaded = false →
        (inferResult (fun _ _ => 0) ⟨false, ⟨0, 0, 0, 0, 0⟩⟩
            ⟨none, [⟨"input", [1, 4], "FP32",
              [JVal.num 5, JVal.num 3, JVal.num 1, JVal.num 0]⟩]⟩).1
          = HandlerOutcome.notReady
        ∧ (inferResult (fun _ _ => 0) ⟨false, ⟨0, 0, 0, 0, 0⟩⟩
            ⟨none, [⟨"input", [1, 4], "FP32",
              [JVal.num 5, JVal.num 3, JVal.num 1, JVal.num 0]⟩]⟩).2 = []
        ∧ applyEvents (⟨0, 0, 0, 0, 0⟩ : MetricsState)
            (inferResult (fun _ _ => 0) ⟨false, ⟨0, 0, 0, 0, 0⟩⟩
              ⟨none, [⟨"input", [1, 4], "FP32",
                [JVal.num 5, JVal.num 3, JVal.num 1, JVal.num 0]⟩]⟩).2
          = (⟨0, 0, 0, 0, 0⟩ : MetricsState))
    ∧ ((⟨false, ⟨0, 0, 0, 0, 0⟩⟩ : ServerState).loaded = true →
        (stepOp (fun _ _ => 0) ⟨false, ⟨0, 0, 0, 0, 0⟩⟩ ServerOp.loadModel).loaded
          = true) :=
  not_ready_rejects_and_ready_irreversible (fun _ _ => 0) ⟨false, ⟨0, 0, 0, 0, 0⟩⟩
    ⟨none, [⟨"input", [1, 4], "FP32",
      [JVal.num 5, JVal.num 3, JVal.num 1, JVal.num 0]⟩]⟩ ServerOp.loadModel

/-- C9: a successful inference on a nested batch of N rows of 4 features
answers with exactly two outputs in order: probabilities with datatype
FP32 and shape [N, 3] carrying exactly N rows of 3 floats each, then
predicted_class with datatype BYTES and shape [N] carrying exactly N
entries. -/
theorem success_response_two_outputs (w : Fin 4 → Fin 3 → ℝ) (st : ServerState)
    (req : InferenceRequest) (inp : InferenceInput) (rest : List InferenceInput)
    (rows : List (List ℚ)) (hl : st.loaded = true) (hi : req.inputs = inp :: rest)
    (hd : inp.data = rows.map (fun r => JVal.arr (r.map JVal.num)))
    (hne : rows ≠ []) (h4 : ∀ r ∈ rows, r.length = 4) :
    ∃ resp pdata cdata,
      (inferResult w st req).1 = HandlerOutcome.ok resp ∧
      resp.outputs =
        [⟨"probabilities", [rows.length, 3], "FP32", OutputData.floats pdata⟩,
          ⟨"predicted_class", [rows.length], "BYTES", OutputData.strs cdata⟩] ∧
      pdata.length = rows.length ∧ (∀ row ∈ pdata, row.length = 3) ∧
      cdata.length = rows.length := by
  obtain ⟨r0, rs, rfl⟩ : ∃ r0 rs, rows = r0 :: rs := by
    cases rows with
    | nil => exact absurd rfl hne
    | cons a b => exact ⟨a, b, rfl⟩
  have h1 : allNums ((r0 :: rs).map (fun r => JVal.arr (r.map JVal.num))) = none := rfl
  have h2 : allRows ((r0 :: rs).map (fun r => JVal.arr (r.map JVal.num)))
      = some (r0 :: rs) := allRows_map _
  have hcond : rs.all (fun r => r.length == r0.length) = true := by
    have h0 : r0.length = 4 := h4 r0 (by simp)
    simp only [List.all_eq_true, beq_iff_eq, h0]
    intro r hrr
    exact h4 r (by simp [hrr])
  have hN : npArray inp.data = Except.ok (NDArr.two (r0 :: rs)) := by
    rw [hd]
    unfold npArray
    rw [h1]
    simp only
    rw [h2]
    simp only
    rw [if_pos hcond]
  have hD : tryDecode req.inputs = Except.ok (r0 :: rs) := by
    rw [hi]
    simp only [tryDecode]
    rw [hN]
  have hall : (r0 :: rs).all (fun r => r.length == 4) = true := (all_len4_iff _).2 h4
  have hB := tryBody_ok_of w req (r0 :: rs) _ hD (predict_eq_ok hall)
  rw [inferResult_ok hl hB]
  refine ⟨_, (r0 :: rs).map (fun r => List.ofFn (softmax (logitsRow w r))),
    (r0 :: rs).map (fun r => className (argmax3 (softmax (logitsRow w r)))),
    rfl, ?_, by simp, ?_, by simp⟩
  · simp [encodeResponse, npShape2]
  · intro row hrow
    simp only [List.mem_map] at hrow
    obtain ⟨r, _, rfl⟩ := hrow
    simp

/-- Witness for C9: one nested row of four features on a ready server. -/
theorem success_response_two_outputs_witness :
    ((⟨true, ⟨0, 0, 0, 0, 1⟩⟩ : ServerState).loaded = true) ∧
    (([⟨"input", [1, 4], "FP32",
        [JVal.arr [JVal.num 5, JVal.num 3, JVal.num 1, JVal.num 0]]⟩]
        : List InferenceInput)
      = ⟨"input", [1, 4], "FP32",
          [JVal.arr [JVal.num 5, JVal.num 3, JVal.num 1, JVal.num 0]]⟩ :: []) ∧
    (([[(5 : ℚ), 3, 1, 0]] : List (List ℚ)) ≠ []) ∧
    (∀ r ∈ ([[(5 : ℚ), 3, 1, 0]] : List (List ℚ)), r.length = 4) ∧
    (∃ resp pdata cdata,
      (inferResult (fun _ _ => 0) ⟨true, ⟨0, 0, 0, 0, 1⟩⟩
          ⟨none, [⟨"input", [1, 4], "FP32",
            [JVal.arr [JVal.num 5, JVal.num 3, JVal.num 1, JVal.num 0]]⟩]⟩).1
        = HandlerOutcome.ok resp ∧
      resp.outputs =
        [⟨"probabilities", [([[(5 : ℚ), 3, 1, 0]] : List (List ℚ)).length, 3], "FP32",
            OutputData.floats pdata⟩,
          ⟨"predicted_class", [([[(5 : ℚ), 3, 1, 0]] : List (List ℚ)).length], "BYTES",
            OutputData.strs cdata⟩] ∧
      pdata.length = ([[(5 : ℚ), 3, 1, 0]] : List (List ℚ)).length ∧
      (∀ row ∈ pdata, row.length = 3) ∧
      cdata.length = ([[(5 : ℚ), 3, 1, 0]] : List (List ℚ)).length) :=
  ⟨rfl, rfl, by decide, by decide,
    success_response_two_outputs (fun _ _ => 0) ⟨true, ⟨0, 0, 0, 0, 1⟩⟩
      ⟨none, [⟨"input", [1, 4], "FP32",
        [JVal.arr [JVal.num 5, JVal.num 3, JVal.num 1, JVal.num 0]]⟩]⟩
      ⟨"input", [1, 4], "FP32",
        [JVal.arr [JVal.num 5, JVal.num 3, JVal.num 1, JVal.num 0]]⟩
      [] [[(5 : ℚ), 3, 1, 0]] rfl rfl rfl (by decide) (by decide)⟩

/-- C10: a request body whose inputs list is empty passes schema validation
(it parses), and on a ready model the handler fails on request.inputs[0]
inside the try block: the route answers with the generic internal error —
not with the validation rejection — the error counter goes up by one, the
active-request gauge is restored, and the gauge decrement is in the trace. -/
theorem empty_inputs_internal_error (w : Fin 4 → Fin 3 → ℝ) (st : ServerState)
    (raw : RawRequest) (hl : st.loaded = true) (hi : raw.inputs = some []) :
    (∃ req, parseRequest raw = some req ∧ req.inputs = []) ∧
    (∃ msg, (handleInferRoute w st raw).1
        = RouteOutcome.handled (HandlerOutcome.internalError msg)) ∧
    (handleInferRoute w st raw).1 ≠ RouteOutcome.invalidRequest ∧
    (applyEvents st.metrics (handleInferRoute w st raw).2).errorCount
        = st.metrics.errorCount + 1 ∧
    (applyEvents st.metrics (handleInferRoute w st raw).2).activeRequests
        = st.metrics.activeRequests ∧
    Event.gaugeDec ∈ (handleInferRoute w st raw).2 := by
  have hp : parseRequest raw = some ⟨raw.id, []⟩ := by
    unfold parseRequest
    rw [hi]
  have hB : tryBody w ⟨raw.id, []⟩ = Except.error errIndex := rfl
  have hI := inferResult_error hl hB
  have hroute : handleInferRoute w st raw
      = (RouteOutcome.handled (HandlerOutcome.internalError errIndex),
          [Event.gaugeInc, Event.decodeStart, Event.countError, Event.gaugeDec]) := by
    unfold handleInferRoute
    rw [hp]
    simp only
    rw [hI]
  rw [hroute]
  refine ⟨⟨⟨raw.id, []⟩, hp, rfl⟩, ⟨errIndex, rfl⟩, by simp, ?_, ?_, by simp⟩
  · simp [applyEvents, applyEvent]
  · simp [applyEvents, applyEvent]

/-- Witness for C10: a ready server and a body with an empty inputs list. -/
theorem empty_inputs_internal_error_witness :
    ((⟨true, ⟨1, 1, 1, 0, 1⟩⟩ : ServerState).loaded = true) ∧
    ((⟨none, some []⟩ : RawRequest).inputs = some []) ∧
    ((∃ req, parseRequest ⟨none, some []⟩ = some req ∧ req.inputs = []) ∧
    (∃ msg, (handleInferRoute (fun _ _ => 0) ⟨true, ⟨1, 1, 1, 0, 1⟩⟩ ⟨none, some []⟩).1
        = RouteOutcome.handled (HandlerOutcome.internalError msg)) ∧
    (handleInferRoute (fun _ _ => 0) ⟨true, ⟨1, 1, 1, 0, 1⟩⟩ ⟨none, some []⟩).1
        ≠ RouteOutcome.invalidRequest ∧
    (applyEvents (⟨1, 1, 1, 0, 1⟩ : MetricsState)
        (handleInferRoute (fun _ _ => 0) ⟨true, ⟨1, 1, 1, 0, 1⟩⟩
          ⟨none, some []⟩).2).errorCount
      = (⟨1, 1, 1, 0, 1⟩ : MetricsState).errorCount + 1 ∧
    (applyEvents (⟨1, 1, 1, 0, 1⟩ : MetricsState)
        (handleInferRoute (fun _ _ => 0) ⟨true, ⟨1, 1, 1, 0, 1⟩⟩
          ⟨none, some []⟩).2).activeRequests
      = (⟨1, 1, 1, 0, 1⟩ : MetricsState).activeRequests ∧
    Event.gaugeDec ∈ (handleInferRoute (fun _ _ => 0) ⟨true, ⟨1, 1, 1, 0, 1⟩⟩
        ⟨none, some []⟩).2) :=
  ⟨rfl, rfl,
    empty_inputs_internal_error (fun _ _ => 0) ⟨true, ⟨1, 1, 1, 0, 1⟩⟩
      ⟨none, some []⟩ rfl rfl⟩

/-- C2 counterexample: a ready server accepts with the 200 success outcome a
request whose declared shape is [3] while its flat payload has 4 elements —
the decode step does not validate the element count of data against the
product of the declared shape. -/
theorem decode_shape_validation_counterexample :
    (inferResult (fun _ _ => 0) ⟨true, ⟨0, 0, 0, 0, 1⟩⟩
        ⟨none, [⟨"input", [3], "FP32",
          [JVal.num 1, JVal.num 2, JVal.num 3, JVal.num 4]⟩]⟩).1.isOk = true ∧
    ((leafCountList [JVal.num 1, JVal.num 2, JVal.num 3, JVal.num 4] : Int)
        ≠ ([3] : List Int).prod) := by
  constructor
  · rfl
  · simp [leafCountList, leafCount]

/-- C2 amended: the decode step performs no validation against the declared
shape field — it ignores it entirely. The handler's whole result is
invariant under changing the declared shape, and a flat numeric payload is
promoted to a single-row batch rather than reshaped to the declared shape;
only rectangularity and the feature count (enforced by the array
conversion and the matrix product) gate acceptance. -/
theorem decode_ignores_declared_shape (w : Fin 4 → Fin 3 → ℝ) (st : ServerState)
    (i : Option String) (nm dt : String) (s1 s2 : List Int) (d : List JVal)
    (rest : List InferenceInput) :
    inferResult w st ⟨i, ⟨nm, s1, dt, d⟩ :: rest⟩
        = inferResult w st ⟨i, ⟨nm, s2, dt, d⟩ :: rest⟩
    ∧ ∀ xs, allNums d = some xs →
        tryDecode (⟨nm, s1, dt, d⟩ :: rest) = Except.ok [xs] := by
  constructor
  · rfl
  · intro xs hxs
    have hN : npArray d = Except.ok (NDArr.one xs) := by
      unfold npArray
      rw [hxs]
    simp only [tryDecode]
    rw [hN]

/-- Witness for the amended C2: declared shapes [3] and [2, 2] over the same
4-element flat payload give identical results, and the flat payload decodes
to the promoted one-row batch. -/
theorem decode_ignores_declared_shape_witness :
    (allNums [JVal.num 1, JVal.num 2, JVal.num 3, JVal.num 4]
        = some [(1 : ℚ), 2, 3, 4]) ∧
    (inferResult (fun _ _ => 0) ⟨true, ⟨0, 0, 0, 0, 1⟩⟩
          ⟨none, [⟨"input", [3], "FP32",
            [JVal.num 1, JVal.num 2, JVal.num 3, JVal.num 4]⟩]⟩
        = inferResult (fun _ _ => 0) ⟨true, ⟨0, 0, 0, 0, 1⟩⟩
          ⟨none, [⟨"input", [2, 2], "FP32",
            [JVal.num 1, JVal.num 2, JVal.num 3, JVal.num 4]⟩]⟩) ∧
    (tryDecode [⟨"input", [3], "FP32",
          [JVal.num 1, JVal.num 2, JVal.num 3, JVal.num 4]⟩]
        = Except.ok [[(1 : ℚ), 2, 3, 4]]) :=
  ⟨rfl,
    (decode_ignores_declared_shape (fun _ _ => 0) ⟨true, ⟨0, 0, 0, 0, 1⟩⟩
      none "input" "FP32" [3] [2, 2]
      [JVal.num 1, JVal.num 2, JVal.num 3, JVal.num 4] []).1,
    (decode_ignores_declared_shape (fun _ _ => 0) ⟨true, ⟨0, 0, 0, 0, 1⟩⟩
      none "input" "FP32" [3] [2, 2]
      [JVal.num 1, JVal.num 2, JVal.num 3, JVal.num 4] []).2
      [(1 : ℚ), 2, 3, 4] rfl⟩

end InferServer
